import Mathlib

/-!
Shallow embedding of the qualification-and-governance decision pipeline of the
AI-SDR dashboard backend (files backend/app/agents/sdr_agent.py and
backend/app/services/llm_service.py), together with proofs of the stated
properties of the parser, the escalation policy, the governance policy, the
rule-based fallbacks and the orchestrator.

Python strings are modelled as lists of characters.  The Python text
operations used by the code (str.upper, str.lower, str.strip, substring
membership, slicing) are modelled on ASCII text, which covers every literal
the code manipulates.  The two regular expressions of the parser,
`[Ss]core:\s*(\d+)` and `[Rr]easoning:\s*(.+?)(?:\n|$)` with DOTALL, are
modelled by explicit leftmost-match scanners whose per-position semantics
follows the backtracking behaviour of re.search on these patterns.
-/

/-- A Python string, modelled as a list of characters. -/
abbrev Str := List Char

/-- Python str.lower (ASCII). -/
def pyLower (s : Str) : Str := s.map Char.toLower

/-- Python str.upper (ASCII). -/
def pyUpper (s : Str) : Str := s.map Char.toUpper

/-- The whitespace class of the Python regex \s and of str.strip (ASCII part):
space, tab, newline, vertical tab, form feed, carriage return. -/
def pyIsSpace (c : Char) : Bool :=
  c == ' ' || c == Char.ofNat 9 || c == Char.ofNat 10 ||
  c == Char.ofNat 11 || c == Char.ofNat 12 || c == Char.ofNat 13

/-- Python str.strip: remove whitespace from both ends. -/
def pyStrip (s : Str) : Str :=
  ((s.dropWhile pyIsSpace).reverse.dropWhile pyIsSpace).reverse

/-- The pattern is a prefix of the text. -/
def headMatch : Str → Str → Bool
  | [], _ => true
  | _ :: _, [] => false
  | p :: ps, c :: cs => p == c && headMatch ps cs

/-- Python substring membership: `pat in s`. -/
def occursIn (pat : Str) : Str → Bool
  | [] => pat.isEmpty
  | c :: t => headMatch pat (c :: t) || occursIn pat t

/-- Value of a decimal digit character. -/
def digitVal (c : Char) : Nat := c.toNat - 48

/-- Numeric value of a run of decimal digits, as Python int() parses it. -/
def digitsToNat (ds : Str) : Nat := ds.foldl (fun acc c => 10 * acc + digitVal c) 0

/-- Leftmost-match scanner: apply the per-position matcher to every suffix of
the text, left to right, and return the first hit.  This is the search
strategy of Python re.search for the two parser patterns. -/
def scanFirst {α : Type} (f : Str → Option α) : Str → Option α
  | [] => none
  | c :: t =>
    match f (c :: t) with
    | some a => some a
    | none => scanFirst f t

/-- Index-based variant of the leftmost-match scanner (for i in range(n)),
used by the spec-level descriptions of the extraction rules. -/
def scanFirstIdx {α : Type} (f : Str → Option α) (s : Str) : Nat → Nat → Option α
  | _, 0 => none
  | i, fuel + 1 =>
    match f (s.drop i) with
    | some a => some a
    | none => scanFirstIdx f s (i + 1) fuel

/-- Per-position matcher of the score regex `[Ss]core:\s*(\d+)` of
sdr_agent.py line 140: an initial S or s, the literal "core:", a greedy run
of whitespace, then at least one digit; the digit run is the captured group. -/
def matchScoreAt (s : Str) : Option Nat :=
  match s with
  | c :: rest =>
    if (c == 'S' || c == 's') && headMatch ("core:".toList) rest then
      let ds := ((rest.drop 5).dropWhile pyIsSpace).takeWhile Char.isDigit
      if ds.isEmpty then none else some (digitsToNat ds)
    else none
  | [] => none

/-- re.search of the score regex over the whole response (leftmost match). -/
def findScore (s : Str) : Option Nat := scanFirst matchScoreAt s

/-- Per-position matcher of the reasoning regex
`[Rr]easoning:\s*(.+?)(?:\n|$)` with re.DOTALL (sdr_agent.py line 153): an
initial R or r, the literal "easoning:", then the greedy `\s*` followed by
the lazy `(.+?)` up to a newline or the end of the text.  Backtracking of
the greedy star against the one-or-more lazy group means the group starts at
the whitespace-skipped position, capped so that at least one character
remains, and extends to the character before the next newline strictly after
its first character, or to the end of the text. -/
def matchReasoningAt (s : Str) : Option Str :=
  match s with
  | c :: rest =>
    if (c == 'R' || c == 'r') && headMatch ("easoning:".toList) rest then
      let after := rest.drop 9
      match after with
      | [] => none
      | _ :: _ =>
        let k := min ((after.takeWhile pyIsSpace).length) (after.length - 1)
        match after.drop k with
        | [] => none
        | d :: ds => some (d :: ds.takeWhile (fun x => !(x == '\n')))
    else none
  | [] => none

/-- Parsed qualification response: the tuple (score, decision, reasoning)
returned by SDRAgent._parse_qualification_response. -/
structure Parsed where
  score : Nat
  decision : Str
  reasoning : Str
deriving DecidableEq

/-- The literal QUALIFIED. -/
def qualifiedTok : Str := "QUALIFIED".toList

/-- The literal DISQUALIFIED. -/
def disqualifiedTok : Str := "DISQUALIFIED".toList

/-- Score extraction of sdr_agent.py lines 140-142: regex search, default 50
when the pattern is absent, then clamp with max(0, min(100, score)). -/
def parsedScore (response : Str) : Nat :=
  let score :=
    match findScore response with
    | some n => n
    | none => 50
  max 0 (min 100 score)

/-- Decision extraction of sdr_agent.py lines 145-150, operating on the
uppercased response. -/
def decisionFrom (response : Str) (score : Nat) : Str :=
  if occursIn qualifiedTok (pyUpper response) &&
      !(occursIn disqualifiedTok (pyUpper response)) then qualifiedTok
  else if occursIn disqualifiedTok (pyUpper response) then disqualifiedTok
  else if 60 ≤ score then qualifiedTok else disqualifiedTok

/-- Reasoning extraction of sdr_agent.py lines 153-154: regex search with
strip on the captured group, else the first 200 characters of the response. -/
def parsedReasoning (response : Str) : Str :=
  match scanFirst matchReasoningAt response with
  | some g => pyStrip g
  | none => response.take 200

/-- SDRAgent._parse_qualification_response. -/
def parse_qualification_response (response : Str) : Parsed :=
  { score := parsedScore response,
    decision := decisionFrom response (parsedScore response),
    reasoning := parsedReasoning response }

/-- A lead record as consumed by the agent: the relevant keys of the
lead_data dictionary.  A key that is absent or holds None is modelled as
none; a key holding a string s is modelled as some s. -/
structure Lead where
  company_name : Option Str
  industry : Option Str
  company_size : Option Str
  contact_name : Option Str
  contact_email : Option Str
deriving DecidableEq

/-- Python truthiness of an optional string: None and the empty string are
falsy, every other string is truthy. -/
def truthy : Option Str → Bool
  | none => false
  | some s => !s.isEmpty

/-- The single-quote character, used inside message literals. -/
def squote : Char := Char.ofNat 39

/-- The competitor denylist of sdr_agent.py line 176, in evaluation order. -/
def competitors : List Str :=
  ["salesforce".toList, "hubspot".toList, "outreach".toList, "salesloft".toList]

/-- The escalation reason produced for a matched competitor. -/
def competitorReason (c : Str) : Str :=
  ("Competitor ".toList) ++ [squote] ++ c ++ [squote] ++ (" mentioned".toList)

/-- The escalation reason produced by the missing-data rule. -/
def missingDataMsg : Str := "Missing critical lead data".toList

/-- The text scanned by the competitor rule: company name (default empty),
a space, and the reasoning, all lowercased (sdr_agent.py line 177). -/
def escalationText (lead : Lead) (reasoning : Str) : Str :=
  pyLower ((lead.company_name.getD []) ++ [' '] ++ reasoning)

/-- The for-loop with break of sdr_agent.py lines 179-183: first competitor
of the denylist occurring in the text, in list order. -/
def firstHit : List Str → Str → Option Str
  | [], _ => none
  | c :: rest, text => if occursIn c text then some c else firstHit rest text

/-- SDRAgent._check_escalation_rules.  The decision argument is accepted and
ignored, as in the source.  The competitor loop runs first; the missing-data
check runs afterwards and overwrites the reason when it fires. -/
def check_escalation_rules (lead : Lead) (_decision reasoning : Str) :
    Bool × Option Str :=
  let text := escalationText lead reasoning
  let afterComp : Bool × Option Str :=
    match firstHit competitors text with
    | some c => (true, some (competitorReason c))
    | none => (false, none)
  if !(truthy lead.industry) || !(truthy lead.company_size) then
    (true, some missingDataMsg)
  else afterComp

/-- A governance issue: rule id, severity, message. -/
structure Issue where
  rule : Str
  severity : Str
  message : Str
deriving DecidableEq

/-- The critical severity literal. -/
def criticalSev : Str := "critical".toList

/-- The warning severity literal. -/
def warningSev : Str := "warning".toList

/-- The pricing keyword denylist of sdr_agent.py line 202. -/
def pricingKeywords : List Str :=
  ["price".toList, "pricing".toList, "cost".toList, "$".toList,
   "dollar".toList, "payment".toList, "fee".toList]

/-- The critical issue appended by the pricing rule. -/
def pricingIssue : Issue :=
  { rule := "no_pricing_discussion".toList,
    severity := criticalSev,
    message := "Email discusses pricing without approval".toList }

/-- The warning issue appended by the length rule. -/
def lengthIssue : Issue :=
  { rule := "max_length".toList,
    severity := warningSev,
    message := "Email exceeds recommended length".toList }

/-- The warning issue appended by the missing-subject rule. -/
def subjectIssue : Issue :=
  { rule := "missing_subject".toList,
    severity := warningSev,
    message := "Email missing subject line".toList }

/-- SDRAgent._check_governance (sdr_agent.py lines 192-228): three rules
append issues in order, and approval holds iff no critical issue was
appended.  The subject search re.search(r'subject:', ..., re.IGNORECASE) is
a case-insensitive substring test since the pattern is literal. -/
def check_governance (email_content : Str) : Bool × List Issue :=
  let issues0 : List Issue := []
  let issues1 :=
    if pricingKeywords.any (fun k => occursIn k (pyLower email_content)) then
      issues0 ++ [pricingIssue]
    else issues0
  let issues2 :=
    if 1000 < email_content.length then issues1 ++ [lengthIssue] else issues1
  let issues3 :=
    if !(occursIn ("subject:".toList) (pyLower email_content)) then
      issues2 ++ [subjectIssue]
    else issues2
  let approved := (issues3.filter (fun i => i.severity == criticalSev)).length == 0
  (approved, issues3)

/-- The mid-size company buckets of sdr_agent.py line 235. -/
def midSizeBuckets : List Str := ["50-500".toList, "500-2000".toList]

/-- The preferred industries of sdr_agent.py line 237. -/
def preferredIndustries : List Str :=
  ["SaaS".toList, "Finance".toList, "Healthcare".toList, "Technology".toList]

/-- The fixed reasoning literal of the rule-based qualification fallback. -/
def fallbackReasoningMsg : Str :=
  "Rule-based qualification (LLM unavailable)".toList

/-- The result dictionary of qualify_lead and of its fallback.  The
escalation_reason field models dictionary key presence: none means the key
is absent from the dictionary, some r means the key is present with value r
(itself an optional string, since the reason may be None). -/
structure QualResult where
  qualified : Bool
  score : Nat
  reasoning : Str
  escalated : Bool
  escalation_reason : Option (Option Str)
  variant : Str
  timestamp : Str
deriving DecidableEq

/-- SDRAgent._fallback_qualification (sdr_agent.py lines 230-251).  A
dictionary lookup with no default yields None for an absent key, and
`None in [...]` is false, so the bonus conditions test the optional fields
directly. -/
def fallback_qualification (lead : Lead) (variant ts : Str) : QualResult :=
  let score :=
    50 +
    (if (match lead.company_size with
         | some s => midSizeBuckets.contains s
         | none => false) then 20 else 0) +
    (if (match lead.industry with
         | some s => preferredIndustries.contains s
         | none => false) then 20 else 0) +
    (if truthy lead.contact_name && truthy lead.contact_email then 10 else 0)
  let decision := if 60 ≤ score then qualifiedTok else disqualifiedTok
  { qualified := decision == qualifiedTok,
    score := score,
    reasoning := fallbackReasoningMsg,
    escalated := false,
    escalation_reason := none,
    variant := variant,
    timestamp := ts }

/-- SDRAgent.qualify_lead (sdr_agent.py lines 34-81), with the oracle
response passed explicitly: the llm.generate call is the only external
effect, so the orchestrator is a pure function of the lead, the variant, the
oracle response and the timestamp.  A falsy response (None or the empty
string) routes to the rule-based fallback; otherwise the response is parsed
and the escalation rules run on the parsed decision and reasoning. -/
def qualify_lead (lead : Lead) (variant : Str) (response : Option Str)
    (ts : Str) : QualResult :=
  match response with
  | none => fallback_qualification lead variant ts
  | some r =>
    if r.isEmpty then fallback_qualification lead variant ts
    else
      let p := parse_qualification_response r
      let er := check_escalation_rules lead p.decision p.reasoning
      { qualified := p.decision == qualifiedTok,
        score := p.score,
        reasoning := p.reasoning,
        escalated := er.1,
        escalation_reason := some er.2,
        variant := variant,
        timestamp := ts }

/-- The result dictionary of generate_email.  The escalated field models
dictionary key presence: none means the key is absent, some b means the key
is present with value b. -/
structure EmailResult where
  email_content : Str
  governance_approved : Bool
  governance_issues : List Issue
  variant : Str
  timestamp : Str
  escalated : Option Bool
deriving DecidableEq

/-- SDRAgent._fallback_email (sdr_agent.py lines 253-268): the fixed email
template with the company, contact name and industry substituted. -/
def fallback_email (lead : Lead) : Str :=
  let company := lead.company_name.getD ("your company".toList)
  let name := lead.contact_name.getD ("there".toList)
  let industry := lead.industry.getD ("your industry".toList)
  ("Subject: Quick question about ".toList) ++ company ++ [squote] ++
  ("s growth\n\nHi ".toList) ++ name ++
  (",\n\nI noticed ".toList) ++ company ++
  (" is making moves in the ".toList) ++ industry ++
  (" space. We".toList) ++ [squote] ++
  ("ve been helping similar companies streamline their sales operations with AI-powered tools.\n\nWould you be open to a brief 15-minute call next week to explore if this could be valuable for your team?\n\nBest regards,\nAI SDR Team".toList)

/-- SDRAgent.generate_email (sdr_agent.py lines 83-130), with the oracle
response passed explicitly.  A falsy response is replaced by the fallback
template; the governance check then runs, and the escalated key is inserted
(with value True) exactly when the email is not approved. -/
def generate_email (lead : Lead) (_qualification_score : Nat)
    (emailResp : Option Str) (variant ts : Str) : EmailResult :=
  let content :=
    match emailResp with
    | none => fallback_email lead
    | some r => if r.isEmpty then fallback_email lead else r
  let gov := check_governance content
  { email_content := content,
    governance_approved := gov.1,
    governance_issues := gov.2,
    variant := variant,
    timestamp := ts,
    escalated := if gov.1 then none else some true }

/-- Outcome of one network attempt of LLMService.generate, as seen by the
retry loop of llm_service.py lines 74-118. -/
inductive NetResult where
  | ok (text : Str)
  | badPayload
  | loading
  | failure
deriving DecidableEq

/-- The canned qualification-style fallback text of llm_service.py
lines 131-136. -/
def qualFallbackText : Str :=
  ("Based on the provided information:\n- Company size and industry are good fit\n- Contact information is complete\n- Engagement signals are positive\nQualification Score: 75/100\nRecommendation: QUALIFIED - Proceed with outreach").toList

/-- The canned email fallback template of llm_service.py lines 139-147. -/
def emailFallbackText : Str :=
  ("Subject: Quick question about [topic]\n\nHi [Name],\n\nI noticed [company] is [relevant observation]. We".toList) ++ [squote] ++
  ("ve helped similar companies in [industry] achieve [specific benefit].\n\nWould you be open to a brief call next week to explore if this could be valuable for your team?\n\nBest regards".toList)

/-- The generic acknowledgement fallback of llm_service.py line 150. -/
def genericFallbackText : Str :=
  "Analysis complete. Proceeding with standard workflow.".toList

/-- LLMService._fallback_response (llm_service.py lines 123-150): keyword
dispatch on the lowercased prompt. -/
def fallback_response (prompt : Str) : Str :=
  let low := pyLower prompt
  if occursIn ("qualify".toList) low || occursIn ("score".toList) low then
    qualFallbackText
  else if occursIn ("email".toList) low || occursIn ("message".toList) low then
    emailFallbackText
  else genericFallbackText

/-- The retry loop of LLMService.generate (llm_service.py lines 74-118): up
to max_retries attempts against the network; a successful attempt returns
the stripped completion text, every other outcome (unexpected payload,
model-loading status, other error, timeout, exception) proceeds to the next
attempt after its sleep; exhaustion yields no text.  The sleeps have no
observable effect on the returned value and are not modelled. -/
def runAttempts (net : Nat → NetResult) : Nat → Nat → Option Str
  | _, 0 => none
  | attempt, fuel + 1 =>
    match net attempt with
    | NetResult.ok text => some (pyStrip text)
    | _ => runAttempts net (attempt + 1) fuel

/-- LLMService.generate (llm_service.py lines 34-121), with the network
modelled as a function from attempt number to outcome.  When the service is
disabled (no credential configured) the network parameter is never consulted
and the rule-based fallback is returned immediately; when enabled, the retry
loop runs and exhaustion also degrades to the fallback. -/
def generate (enabled : Bool) (max_retries : Nat) (net : Nat → NetResult)
    (prompt : Str) : Str :=
  if !enabled then fallback_response prompt
  else
    match runAttempts net 0 max_retries with
    | some t => t
    | none => fallback_response prompt

/-- Modelled from the claim wording of C2: a genuinely case-insensitive
score marker, i.e. the lowercased text starts with "score:" at the match
position, followed by optional whitespace and at least one digit. -/
def matchScoreAtCI (s : Str) : Option Nat :=
  if headMatch ("score:".toList) (pyLower s) then
    let ds := ((s.drop 6).dropWhile pyIsSpace).takeWhile Char.isDigit
    if ds.isEmpty then none else some (digitsToNat ds)
  else none

/-- Modelled from the claim wording of C2: score extraction with a
case-insensitive marker, clamp to [0,100], default 50. -/
def specScoreCI (s : Str) : Nat :=
  match scanFirst matchScoreAtCI s with
  | some n => max 0 (min 100 n)
  | none => 50

/-- Modelled from the claim wording of C8: a genuinely case-insensitive
reasoning marker, with the same capture behaviour as the code regex. -/
def matchReasoningAtCI (s : Str) : Option Str :=
  if headMatch ("reasoning:".toList) (pyLower s) then
    let after := s.drop 10
    match after with
    | [] => none
    | _ :: _ =>
      let k := min ((after.takeWhile pyIsSpace).length) (after.length - 1)
      match after.drop k with
      | [] => none
      | d :: ds => some (d :: ds.takeWhile (fun x => !(x == '\n')))
  else none

/-- Modelled from the claim wording of C8: reasoning extraction with a
case-insensitive marker; absent marker falls back to the first 200
characters. -/
def specReasoningCI (s : Str) : Str :=
  match scanFirst matchReasoningAtCI s with
  | some g => pyStrip g
  | none => s.take 200

/-- Spec-level restatement of the score extraction rule (amended to the
marker the code accepts): scan the positions of the text left to right, and
at the first position carrying a score marker followed by digits, parse and
clamp; default 50. -/
def specScoreFirstCap (s : Str) : Nat :=
  match scanFirstIdx matchScoreAt s 0 s.length with
  | some n => max 0 (min 100 n)
  | none => 50

/-- Spec-level restatement of the reasoning extraction rule (amended to the
marker the code accepts): scan the positions of the text left to right, and
at the first position carrying a reasoning marker, capture to the end of
line or text and trim; default the first 200 characters. -/
def specReasoningFirstCap (s : Str) : Str :=
  match scanFirstIdx matchReasoningAt s 0 s.length with
  | some g => pyStrip g
  | none => s.take 200

/-- Erase the timestamp field of a qualification result, for the statement
of determinism modulo timestamp. -/
def stripTimestamp (r : QualResult) : QualResult := { r with timestamp := [] }

/-- headMatch is the prefix relation. -/
theorem headMatch_iff (p : Str) : ∀ s : Str, headMatch p s = true ↔ ∃ t, s = p ++ t := by
  induction p with
  | nil =>
    intro s
    constructor
    · intro _; exact ⟨s, rfl⟩
    · intro _; rfl
  | cons a ps ih =>
    intro s
    cases s with
    | nil =>
      constructor
      · intro h; exact absurd h (by simp [headMatch])
      · rintro ⟨t, ht⟩; exact absurd ht (by simp)
    | cons c cs =>
      constructor
      · intro h
        simp only [headMatch, Bool.and_eq_true, beq_iff_eq] at h
        obtain ⟨rfl, h2⟩ := h
        obtain ⟨t, rfl⟩ := (ih cs).mp h2
        exact ⟨t, rfl⟩
      · rintro ⟨t, ht⟩
        rw [List.cons_append] at ht
        injection ht with h1 h2
        subst h1
        subst h2
        simp only [headMatch, Bool.and_eq_true, beq_iff_eq]
        exact ⟨trivial, (ih (ps ++ t)).mpr ⟨t, rfl⟩⟩

/-- occursIn is the substring relation. -/
theorem occursIn_iff (p : Str) : ∀ s : Str, occursIn p s = true ↔ ∃ pre post, s = pre ++ (p ++ post) := by
  intro s
  induction s with
  | nil =>
    constructor
    · intro h
      have hp : p = [] := by simpa [occursIn, List.isEmpty_iff] using h
      exact ⟨[], [], by simp [hp]⟩
    · rintro ⟨pre, post, h⟩
      have h' := h.symm
      rw [List.append_eq_nil] at h'
      obtain ⟨-, h2⟩ := h'
      rw [List.append_eq_nil] at h2
      obtain ⟨hp, -⟩ := h2
      simp [occursIn, hp]
  | cons c t ih =>
    constructor
    · intro h
      cases hh : headMatch p (c :: t) with
      | true =>
        obtain ⟨post, hpost⟩ := (headMatch_iff p (c :: t)).mp hh
        exact ⟨[], post, hpost⟩
      | false =>
        have h2 : occursIn p t = true := by simpa [occursIn, hh] using h
        obtain ⟨pre, post, rfl⟩ := ih.mp h2
        exact ⟨c :: pre, post, rfl⟩
    · rintro ⟨pre, post, hs⟩
      cases pre with
      | nil =>
        have h1 : headMatch p (c :: t) = true :=
          (headMatch_iff p (c :: t)).mpr ⟨post, by simpa using hs⟩
        simp [occursIn, h1]
      | cons a pre2 =>
        rw [List.cons_append] at hs
        injection hs with e1 e2
        have h2 : occursIn p t = true := ih.mpr ⟨pre2, post, e2⟩
        simp [occursIn, h2]

/-- A text containing DISQUALIFIED also contains QUALIFIED, since the former
extends the latter. -/
theorem occursIn_qual_of_disq {s : Str} (h : occursIn disqualifiedTok s = true) :
    occursIn qualifiedTok s = true := by
  obtain ⟨pre, post, rfl⟩ := (occursIn_iff _ s).mp h
  refine (occursIn_iff _ _).mpr ⟨pre ++ ("DIS".toList), post, ?_⟩
  have hsplit : disqualifiedTok = ("DIS".toList) ++ qualifiedTok := by decide
  rw [hsplit]
  simp [List.append_assoc]

/-- A hit of the leftmost-match scanner happens at some suffix of the text. -/
theorem scanFirst_some {α : Type} (f : Str → Option α) :
    ∀ (s : Str) (a : α), scanFirst f s = some a → ∃ pre t, s = pre ++ t ∧ f t = some a := by
  intro s
  induction s with
  | nil => intro a h; simp [scanFirst] at h
  | cons c t ih =>
    intro a h
    cases hf : f (c :: t) with
    | some b =>
      simp [scanFirst, hf] at h
      exact ⟨[], c :: t, by simp, by rw [hf, h]⟩
    | none =>
      simp [scanFirst, hf] at h
      obtain ⟨pre, t2, ht, hft⟩ := ih a h
      exact ⟨c :: pre, t2, by simp [ht], hft⟩

/-- The index-based scanner agrees with the structural one. -/
theorem scanFirstIdx_eq {α : Type} (f : Str → Option α) :
    ∀ (t s : Str) (i : Nat), s.drop i = t →
      scanFirstIdx f s i t.length = scanFirst f t := by
  intro t
  induction t with
  | nil => intro s i h; simp [scanFirstIdx, scanFirst]
  | cons c t2 ih =>
    intro s i h
    have hdrop : s.drop (i + 1) = t2 := by
      calc s.drop (i + 1) = (s.drop i).tail := (List.tail_drop s i).symm
        _ = t2 := by rw [h]; rfl
    show scanFirstIdx f s i (t2.length + 1) = scanFirst f (c :: t2)
    cases hf : f (c :: t2) with
    | some a => simp [scanFirstIdx, scanFirst, h, hf]
    | none => simp [scanFirstIdx, scanFirst, h, hf, ih s (i + 1) hdrop]

/-- A score-pattern hit starts with a score marker in one of the two cases
the regex accepts. -/
theorem matchScoreAt_marker {t : Str} {n : Nat} (h : matchScoreAt t = some n) :
    headMatch ("score:".toList) t = true ∨ headMatch ("Score:".toList) t = true := by
  cases t with
  | nil => simp [matchScoreAt] at h
  | cons c rest =>
    cases hc1 : (c == 'S' || c == 's') with
    | false => simp [matchScoreAt, hc1] at h
    | true =>
      cases hc2 : headMatch (['c', 'o', 'r', 'e', ':']) rest with
      | false => simp [matchScoreAt, hc1, hc2] at h
      | true =>
        cases hS : (c == 'S') with
        | true =>
          right
          have : c = 'S' := beq_iff_eq.mp hS
          subst this
          have hexp : ("Score:".toList) = 'S' :: ("core:".toList) := by decide
          rw [hexp]
          simp [headMatch, hc2]
        | false =>
          left
          have hs2 : (c == 's') = true := by simpa [hS] using hc1
          have : c = 's' := beq_iff_eq.mp hs2
          subst this
          have hexp : ("score:".toList) = 's' :: ("core:".toList) := by decide
          rw [hexp]
          simp [headMatch, hc2]

/-- A reasoning-pattern hit starts with a reasoning marker in one of the two
cases the regex accepts. -/
theorem matchReasoningAt_marker {t g : Str} (h : matchReasoningAt t = some g) :
    headMatch ("reasoning:".toList) t = true ∨ headMatch ("Reasoning:".toList) t = true := by
  cases t with
  | nil => simp [matchReasoningAt] at h
  | cons c rest =>
    cases hc1 : (c == 'R' || c == 'r') with
    | false => simp [matchReasoningAt, hc1] at h
    | true =>
      cases hc2 : headMatch (['e', 'a', 's', 'o', 'n', 'i', 'n', 'g', ':']) rest with
      | false => simp [matchReasoningAt, hc1, hc2] at h
      | true =>
        cases hR : (c == 'R') with
        | true =>
          right
          have : c = 'R' := beq_iff_eq.mp hR
          subst this
          have hexp : ("Reasoning:".toList) = 'R' :: ("easoning:".toList) := by decide
          rw [hexp]
          simp [headMatch, hc2]
        | false =>
          left
          have hr2 : (c == 'r') = true := by simpa [hR] using hc1
          have : c = 'r' := beq_iff_eq.mp hr2
          subst this
          have hexp : ("reasoning:".toList) = 'r' :: ("easoning:".toList) := by decide
          rw [hexp]
          simp [headMatch, hc2]

/-- When the score search succeeds, the response contains a score marker. -/
theorem marker_occurs_of_findScore {resp : Str} {n : Nat} (h : findScore resp = some n) :
    occursIn ("score:".toList) resp = true ∨ occursIn ("Score:".toList) resp = true := by
  obtain ⟨pre, t, hs, hft⟩ := scanFirst_some matchScoreAt resp n h
  subst hs
  rcases matchScoreAt_marker hft with hm | hm
  · left
    obtain ⟨post, rfl⟩ := (headMatch_iff _ t).mp hm
    exact (occursIn_iff _ _).mpr ⟨pre, post, rfl⟩
  · right
    obtain ⟨post, rfl⟩ := (headMatch_iff _ t).mp hm
    exact (occursIn_iff _ _).mpr ⟨pre, post, rfl⟩

/-- When the reasoning search succeeds, the response contains a reasoning
marker. -/
theorem marker_occurs_of_findReasoning {resp g : Str}
    (h : scanFirst matchReasoningAt resp = some g) :
    occursIn ("reasoning:".toList) resp = true ∨ occursIn ("Reasoning:".toList) resp = true := by
  obtain ⟨pre, t, hs, hft⟩ := scanFirst_some matchReasoningAt resp g h
  subst hs
  rcases matchReasoningAt_marker hft with hm | hm
  · left
    obtain ⟨post, rfl⟩ := (headMatch_iff _ t).mp hm
    exact (occursIn_iff _ _).mpr ⟨pre, post, rfl⟩
  · right
    obtain ⟨post, rfl⟩ := (headMatch_iff _ t).mp hm
    exact (occursIn_iff _ _).mpr ⟨pre, post, rfl⟩

/-- The competitor loop is List.find? on the denylist. -/
theorem firstHit_eq (text : Str) : ∀ l : List Str,
    firstHit l text = l.find? (fun c => occursIn c text) := by
  intro l
  induction l with
  | nil => rfl
  | cons c rest ih =>
    cases h : occursIn c text <;> simp [firstHit, List.find?_cons, h, ih]

/-- find? hits exactly when some element satisfies the test. -/
theorem find?_isSome_any (p : Str → Bool) (l : List Str) :
    (l.find? p).isSome = l.any p := by
  induction l with
  | nil => rfl
  | cons a t ih =>
    cases h : p a <;> simp [List.find?_cons, h, ih]

/-- C1: for every response text, the decision extracted by the parser obeys
the precedence law: a text containing DISQUALIFIED (any case) anywhere is
decided DISQUALIFIED even when QUALIFIED also appears; a text containing
QUALIFIED but not DISQUALIFIED is decided QUALIFIED; a text containing
neither token is decided QUALIFIED exactly when the parsed score is at
least 60. -/
theorem c1_decision_precedence (resp : Str) :
    (parse_qualification_response resp).decision =
      (if occursIn disqualifiedTok (pyUpper resp) then disqualifiedTok
       else if occursIn qualifiedTok (pyUpper resp) then qualifiedTok
       else if 60 ≤ (parse_qualification_response resp).score then qualifiedTok
       else disqualifiedTok) := by
  show decisionFrom resp (parsedScore resp) = _
  unfold decisionFrom
  cases hd : occursIn disqualifiedTok (pyUpper resp) with
  | false =>
    cases hq : occursIn qualifiedTok (pyUpper resp) with
    | false => simp [hd, hq]; rfl
    | true => simp [hd, hq]
  | true =>
    have hq : occursIn qualifiedTok (pyUpper resp) = true := occursIn_qual_of_disq hd
    simp [hd, hq]

/-- C2 counterexample: the claim asserts a case-insensitive score marker, but
the code regex `[Ss]core:` only accepts a lower- or capitalised initial
letter.  On the input SCORE: 85 the case-insensitive reading extracts 85
while the parser returns the default 50. -/
theorem c2_counterexample :
    specScoreCI (("SCORE: 85").toList) = 85
    ∧ (parse_qualification_response (("SCORE: 85").toList)).score = 50
    ∧ specScoreCI (("SCORE: 85").toList)
        ≠ (parse_qualification_response (("SCORE: 85").toList)).score := by
  refine ⟨by decide, by decide, by decide⟩

/-- C2 amended: the score extraction locates the leftmost occurrence of a
score marker whose initial letter is upper or lower case (score: or Score:),
skips whitespace, parses the following digits and clamps to [0,100]; with no
such marker-and-digits occurrence the score defaults to 50; in particular a
text containing neither score: nor Score: yields 50, and every parsed score
is at most 100 (and at least 0, trivially). -/
theorem c2_score_extraction (resp : Str) :
    (parse_qualification_response resp).score = specScoreFirstCap resp
    ∧ (parse_qualification_response resp).score ≤ 100
    ∧ ((occursIn ("score:".toList) resp || occursIn ("Score:".toList) resp) = false
        → (parse_qualification_response resp).score = 50) := by
  refine ⟨?_, ?_, ?_⟩
  · show parsedScore resp = specScoreFirstCap resp
    unfold parsedScore specScoreFirstCap findScore
    rw [scanFirstIdx_eq matchScoreAt resp resp 0 (by simp)]
    cases h : scanFirst matchScoreAt resp <;> simp [h]
  · show parsedScore resp ≤ 100
    unfold parsedScore
    cases h : findScore resp <;> simp [h]
  · intro hnone
    have hfs : findScore resp = none := by
      cases hf : findScore resp with
      | none => rfl
      | some n =>
        rcases marker_occurs_of_findScore hf with hm | hm
        · rw [hm] at hnone
          simp at hnone
        · rw [hm] at hnone
          simp at hnone
    show parsedScore resp = 50
    unfold parsedScore
    rw [hfs]
    decide

/-- C2 witness: a text with no score marker at all parses to the default 50. -/
theorem c2_score_extraction_witness :
    (parse_qualification_response (("no digits here").toList)).score = 50 :=
  (c2_score_extraction (("no digits here").toList)).2.2 (by decide)

/-- C8 counterexample: the claim asserts a case-insensitive reasoning
marker, but the code regex `[Rr]easoning:` only accepts a lower- or
capitalised initial letter.  On the input REASONING: great the
case-insensitive reading captures great while the parser falls back to the
first 200 characters of the raw text. -/
theorem c8_counterexample :
    specReasoningCI (("REASONING: great").toList) = ("great").toList
    ∧ (parse_qualification_response (("REASONING: great").toList)).reasoning
        = ("REASONING: great").toList
    ∧ specReasoningCI (("REASONING: great").toList)
        ≠ (parse_qualification_response (("REASONING: great").toList)).reasoning := by
  refine ⟨by decide, by decide, by decide⟩

/-- C8 amended: the reasoning extraction locates the leftmost occurrence of
a reasoning marker whose initial letter is upper or lower case (reasoning:
or Reasoning:), skips whitespace, captures to the end of that line (or of
the text) and trims; with no such marker the reasoning is the first 200
characters of the raw text; in particular a text containing neither
reasoning: nor Reasoning: yields its own first 200 characters. -/
theorem c8_reasoning_extraction (resp : Str) :
    (parse_qualification_response resp).reasoning = specReasoningFirstCap resp
    ∧ ((occursIn ("reasoning:".toList) resp || occursIn ("Reasoning:".toList) resp) = false
        → (parse_qualification_response resp).reasoning = resp.take 200) := by
  refine ⟨?_, ?_⟩
  · show parsedReasoning resp = specReasoningFirstCap resp
    unfold parsedReasoning specReasoningFirstCap
    rw [scanFirstIdx_eq matchReasoningAt resp resp 0 (by simp)]
  · intro hnone
    have hfs : scanFirst matchReasoningAt resp = none := by
      cases hf : scanFirst matchReasoningAt resp with
      | none => rfl
      | some g =>
        rcases marker_occurs_of_findReasoning hf with hm | hm
        · rw [hm] at hnone
          simp at hnone
        · rw [hm] at hnone
          simp at hnone
    show parsedReasoning resp = resp.take 200
    unfold parsedReasoning
    rw [hfs]

/-- C8 witness: a text with no reasoning marker parses to its first 200
characters. -/
theorem c8_reasoning_extraction_witness :
    (parse_qualification_response (("hello world").toList)).reasoning
      = (("hello world").toList).take 200 :=
  (c8_reasoning_extraction (("hello world").toList)).2 (by decide)

/-- C3: the escalation check escalates exactly when a rule fires: either
some competitor of the denylist (scanned in list order over the lowercased
concatenation of company name and reasoning, first hit winning and naming
the competitor in the reason) occurs in the text, or industry or company
size is absent or empty; the missing-data rule fires regardless of the
competitor outcome and then sets the missing-data reason; and a lead whose
industry is absent is escalated whatever the rest of its data, the decision
and the reasoning. -/
theorem c3_escalation (lead : Lead) (decision reasoning : Str) :
    (check_escalation_rules lead decision reasoning).1
      = (competitors.any (fun c => occursIn c (escalationText lead reasoning))
         || !(truthy lead.industry) || !(truthy lead.company_size))
    ∧ (check_escalation_rules lead decision reasoning).2
      = (if !(truthy lead.industry) || !(truthy lead.company_size) then
           some missingDataMsg
         else
           (competitors.find?
             (fun c => occursIn c (escalationText lead reasoning))).map competitorReason)
    ∧ (check_escalation_rules { lead with industry := none } decision reasoning).1 = true := by
  refine ⟨?_, ?_, ?_⟩
  · simp only [check_escalation_rules]
    rw [firstHit_eq]
    cases hm : (!(truthy lead.industry) || !(truthy lead.company_size)) with
    | true =>
      rcases Bool.or_eq_true_iff.mp hm with h1 | h1 <;>
        cases hfind : competitors.find? (fun c => occursIn c (escalationText lead reasoning)) <;>
          simp [hm, h1, hfind, ← find?_isSome_any]
    | false =>
      cases hfind : competitors.find? (fun c => occursIn c (escalationText lead reasoning)) <;>
        simp [hm, hfind, ← find?_isSome_any]
  · simp only [check_escalation_rules]
    rw [firstHit_eq]
    cases hm : (!(truthy lead.industry) || !(truthy lead.company_size)) with
    | true =>
      cases hfind : competitors.find? (fun c => occursIn c (escalationText lead reasoning)) <;>
        simp [hm, hfind]
    | false =>
      cases hfind : competitors.find? (fun c => occursIn c (escalationText lead reasoning)) <;>
        simp [hm, hfind]
  · simp [check_escalation_rules, truthy]

/-- C4: for every email text, the governance verdict approves exactly when
the produced issue list contains no critical-severity issue; equivalently,
approval is decided by the pricing rule alone, so the two warning rules
(length over 1000, missing subject marker) never affect it. -/
theorem c4_governance (email : Str) :
    (check_governance email).1
      = !((check_governance email).2.any (fun i => i.severity == criticalSev))
    ∧ (check_governance email).1
      = !(pricingKeywords.any (fun k => occursIn k (pyLower email))) := by
  cases h1 : pricingKeywords.any (fun k => occursIn k (pyLower email)) <;>
    by_cases h2 : 1000 < email.length <;>
      cases h3 : occursIn (['s', 'u', 'b', 'j', 'e', 'c', 't', ':']) (pyLower email) <;>
        simp [check_governance, h1, h2, h3] <;> decide

/-- C6: an email containing any pricing keyword (case-insensitively) yields
a critical issue with rule id no_pricing_discussion, and the governance
verdict rejects it. -/
theorem c6_pricing (email : Str)
    (h : pricingKeywords.any (fun k => occursIn k (pyLower email)) = true) :
    ((check_governance email).2.any
        (fun i => i.rule == ("no_pricing_discussion".toList) && i.severity == criticalSev)) = true
    ∧ (check_governance email).1 = false := by
  by_cases h2 : 1000 < email.length <;>
    cases h3 : occursIn (['s', 'u', 'b', 'j', 'e', 'c', 't', ':']) (pyLower email) <;>
      simp [check_governance, h, h2, h3] <;> decide

/-- C6 witness: the pricing email of the spec scenario is rejected with the
no_pricing_discussion critical issue. -/
theorem c6_pricing_witness :
    ((check_governance (("Our pricing starts at $99/month").toList)).2.any
        (fun i => i.rule == ("no_pricing_discussion".toList) && i.severity == criticalSev)) = true
    ∧ (check_governance (("Our pricing starts at $99/month").toList)).1 = false :=
  c6_pricing (("Our pricing starts at $99/month").toList) (by decide)

/-- C5: a falsy oracle response (None or empty) routes qualify-lead to the
rule-based fallback; the fallback scores 50 plus 20 for a mid-size bucket,
plus 20 for a preferred industry, plus 10 when both contact fields are
truthy, qualifies exactly when the total reaches 60, reports the fixed
oracle-unavailable reasoning, and never escalates; and the lead of the spec
scenario (size 50-500, industry SaaS, both contacts present) scores 100,
qualifies and is not escalated. -/
theorem c5_fallback_qualification (lead : Lead) (variant ts : Str) :
    qualify_lead lead variant none ts = fallback_qualification lead variant ts
    ∧ qualify_lead lead variant (some []) ts = fallback_qualification lead variant ts
    ∧ (fallback_qualification lead variant ts).score =
        50 +
        (if (match lead.company_size with
             | some s => midSizeBuckets.contains s
             | none => false) then 20 else 0) +
        (if (match lead.industry with
             | some s => preferredIndustries.contains s
             | none => false) then 20 else 0) +
        (if truthy lead.contact_name && truthy lead.contact_email then 10 else 0)
    ∧ (fallback_qualification lead variant ts).qualified =
        decide (60 ≤ (fallback_qualification lead variant ts).score)
    ∧ (fallback_qualification lead variant ts).reasoning = fallbackReasoningMsg
    ∧ (fallback_qualification lead variant ts).escalated = false
    ∧ (fallback_qualification
        { lead with company_size := some (("50-500").toList),
                    industry := some (("SaaS").toList),
                    contact_name := some (("Jane").toList),
                    contact_email := some (("j@x.com").toList) } variant ts).score = 100
    ∧ (fallback_qualification
        { lead with company_size := some (("50-500").toList),
                    industry := some (("SaaS").toList),
                    contact_name := some (("Jane").toList),
                    contact_email := some (("j@x.com").toList) } variant ts).qualified = true
    ∧ (fallback_qualification
        { lead with company_size := some (("50-500").toList),
                    industry := some (("SaaS").toList),
                    contact_name := some (("Jane").toList),
                    contact_email := some (("j@x.com").toList) } variant ts).escalated = false := by
  refine ⟨rfl, rfl, rfl, ?_, rfl, rfl, rfl, rfl, rfl⟩
  have key : ∀ n : Nat,
      ((if 60 ≤ n then qualifiedTok else disqualifiedTok) == qualifiedTok) = decide (60 ≤ n) := by
    intro n
    by_cases h : 60 ≤ n
    · simp [h]
    · simp [h]
      decide
  exact key _

/-- C7: with the oracle disabled (no credential configured), generate never
consults the network (its value is the same for every network behaviour and
equals the rule-based fallback text), the fallback text is non-empty for
every prompt, and the canned qualification-style fallback parses to score 75
with decision QUALIFIED. -/
theorem c7_disabled_oracle (prompt : Str) (mr : Nat) (net net2 : Nat → NetResult) :
    generate false mr net prompt = fallback_response prompt
    ∧ generate false mr net prompt = generate false mr net2 prompt
    ∧ (fallback_response prompt).isEmpty = false
    ∧ (parse_qualification_response qualFallbackText).score = 75
    ∧ (parse_qualification_response qualFallbackText).decision = qualifiedTok := by
  refine ⟨rfl, rfl, ?_, by decide, by decide⟩
  cases q1 : occursIn (['q', 'u', 'a', 'l', 'i', 'f', 'y']) (pyLower prompt) <;>
    cases q2 : occursIn (['s', 'c', 'o', 'r', 'e']) (pyLower prompt) <;>
      cases q3 : occursIn (['e', 'm', 'a', 'i', 'l']) (pyLower prompt) <;>
        cases q4 : occursIn (['m', 'e', 's', 's', 'a', 'g', 'e']) (pyLower prompt) <;>
          simp [fallback_response, q1, q2, q3, q4] <;> decide

/-- C9: with identical lead, identical variant and the oracle fixed to the
same response, two invocations of qualify-lead agree on every field except
the timestamp. -/
theorem c9_determinism (lead : Lead) (variant : Str) (response : Option Str)
    (t1 t2 : Str) :
    stripTimestamp (qualify_lead lead variant response t1)
      = stripTimestamp (qualify_lead lead variant response t2) := by
  cases response with
  | none => rfl
  | some r =>
    cases hr : r.isEmpty <;> simp [qualify_lead, stripTimestamp, fallback_qualification, hr]

/-- C10: the generate-email result carries the escalated key exactly when
governance did not approve, and then with value true; the rule-based
qualification fallback omits the escalation_reason key; the normal
qualify-lead path (any non-empty oracle response) includes it, holding the
escalation check's reason. -/
theorem c10_field_presence (lead : Lead) (qscore : Nat) (eresp : Option Str)
    (variant ts : Str) (c : Char) (cs : Str) :
    (generate_email lead qscore eresp variant ts).escalated
      = (if (generate_email lead qscore eresp variant ts).governance_approved then none
         else some true)
    ∧ (fallback_qualification lead variant ts).escalation_reason = none
    ∧ (qualify_lead lead variant (some (c :: cs)) ts).escalation_reason
        = some (check_escalation_rules lead
            (parse_qualification_response (c :: cs)).decision
            (parse_qualification_response (c :: cs)).reasoning).2 := by
  exact ⟨rfl, rfl, rfl⟩
